import Mathlib

/-!
# Verification of the StressDomain canvas widget

A shallow embedding of the `StressDomain` class (file `src/unnamed/part_000`,
the polished variant; `src/StressDomain.js` is an earlier cut of the same
widget with identical `scaleX`/`scaleY` and point-drawing logic).

Modelling conventions:
* JavaScript numbers are embedded as `ℚ` (exact rational arithmetic);
  `Math.floor` is `Int.floor`, `Math.round x` is `⌊x + 1/2⌋`.
* Canvas/DOM side effects are embedded as a list of `RenderEvent`s emitted by
  a render pass; `console.error` is the `logError` event.
* A JavaScript array access `a[i]` that can yield `undefined` (negative or
  too-large index) is embedded as an `Option`-valued lookup; subsequent code
  that would throw on `undefined` propagates `none`.
* The device-pixel-ratio resizing in the constructor keeps the logical (CSS)
  size fixed, so all geometry below works with the logical width/height.
-/

namespace StressDomain

/-! ## Hex-string utilities (hexToRgb / rgbToHex) -/

/-- Value of one hexadecimal digit, as accepted by `parseInt(_, 16)`. -/
def hexDigitVal (c : Char) : Option ℕ :=
  if '0' ≤ c ∧ c ≤ '9' then some (c.toNat - '0'.toNat)
  else if 'a' ≤ c ∧ c ≤ 'f' then some (c.toNat - 'a'.toNat + 10)
  else if 'A' ≤ c ∧ c ≤ 'F' then some (c.toNat - 'A'.toNat + 10)
  else none

/-- Accumulator loop of `parseInt(s, 16)`: consume hex digits from the left,
stopping at the first character that is not a hex digit. -/
def parseHexAux : List Char → ℕ → ℕ
  | [], acc => acc
  | c :: cs, acc =>
    match hexDigitVal c with
    | some d => parseHexAux cs (acc * 16 + d)
    | none => acc

/-- `parseInt(s, 16)`.  An input with no leading hex digit gives `NaN` in JS,
but every use here immediately coerces the result with 32-bit operations
(`>> k & 255`), which map `NaN` to `0`; so the embedding returns `0` there. -/
def parseIntHex (s : List Char) : ℕ := parseHexAux s 0

/-- An r/g/b channel triple as produced by `hexToRgb`. -/
structure Rgb where
  r : ℕ
  g : ℕ
  b : ℕ
deriving DecidableEq

/-- `hexToRgb(hex)`: `bigint = parseInt(hex.slice(1), 16)` and the three
channels `(bigint >> 16) & 255`, `(bigint >> 8) & 255`, `bigint & 255`. -/
def hexToRgb (hex : String) : Rgb :=
  let bigint := parseIntHex (hex.data.drop 1)
  { r := (bigint >>> 16) &&& 255, g := (bigint >>> 8) &&& 255, b := bigint &&& 255 }

/-- Structural-recursion worker for base-16 printing (fuel-indexed so that the
kernel can evaluate it). -/
def natToHexAux : ℕ → ℕ → List Char
  | 0, _ => []
  | fuel + 1, n =>
    if n < 16 then [Nat.digitChar n]
    else natToHexAux fuel (n / 16) ++ [Nat.digitChar (n % 16)]

/-- Base-16 digits of `n`, lowercase: `Number.prototype.toString(16)` for a
nonnegative integer. -/
def natToHexDigits (n : ℕ) : List Char := natToHexAux (n + 1) n

/-- `rgbToHex(r, g, b)`:
`"#" + ((1 << 24) + (r << 16) + (g << 8) + b).toString(16).slice(1)`.
All call sites pass channels in `[0, 255]`, where the JS shift-and-add equals
the integer `2^24 + r*2^16 + g*2^8 + b`. -/
def rgbToHex (r g b : ℤ) : String :=
  String.mk ('#' :: (natToHexDigits (2 ^ 24 + r * 2 ^ 16 + g * 2 ^ 8 + b).toNat).drop 1)

/-- `Math.round` (round half toward positive infinity). -/
def jsRound (q : ℚ) : ℤ := ⌊q + 1 / 2⌋

/-- `interpolate(start, end, factor) = start + (end - start) * factor`. -/
def interpolate (a b factor : ℚ) : ℚ := a + (b - a) * factor

/-- `interpolateColor(color1, color2, factor)`: channel-wise linear
interpolation of the parsed colors, rounded and re-encoded as hex. -/
def interpolateColor (color1 color2 : String) (factor : ℚ) : String :=
  let rgb1 := hexToRgb color1
  let rgb2 := hexToRgb color2
  let r := jsRound (interpolate (rgb1.r : ℚ) (rgb2.r : ℚ) factor)
  let g := jsRound (interpolate (rgb1.g : ℚ) (rgb2.g : ℚ) factor)
  let b := jsRound (interpolate (rgb1.b : ℚ) (rgb2.b : ℚ) factor)
  rgbToHex r g b

/-! ## The fixed palette table -/

/-- The 10 `viridis` stops. -/
def viridisStops : List String :=
  ["#440154", "#482878", "#3e4989", "#31688e", "#26828e",
   "#1f9e89", "#35b779", "#6ece58", "#b5de2b", "#fde725"]

/-- The 10 `plasma` stops. -/
def plasmaStops : List String :=
  ["#0d0887", "#46039f", "#7201a8", "#9c179e", "#bd3786",
   "#d8576b", "#ed7953", "#fb9f3a", "#fdca26", "#f0f921"]

/-- The 10 `inferno` stops. -/
def infernoStops : List String :=
  ["#000004", "#1b0c41", "#4a0c6b", "#781c6d", "#a52c60",
   "#cf4446", "#ed6925", "#fb9b06", "#f7d13d", "#fcffa4"]

/-- The 2 `bw` stops. -/
def bwStops : List String := ["#000000", "#ffffff"]

/-- The process-wide constant `colorSchemes` table, keyed by name. -/
def colorSchemes : List (String × List String) :=
  [("viridis", viridisStops), ("plasma", plasmaStops),
   ("inferno", infernoStops), ("bw", bwStops)]

/-! ## Color resolution (getColor) -/

/-- JS array indexing `l[i]`: `undefined` (here `none`) when `i` is negative
or at least `l.length`. -/
def jsGet (l : List String) (i : ℤ) : Option String :=
  if 0 ≤ i then l.get? i.toNat else none

/-- `getColor(value)` over a given color table:
`scaledValue = value * (length - 1)`; `index = Math.floor(scaledValue)`;
`factor = scaledValue - index`; clamp to the last stop when
`index >= length - 1`, otherwise interpolate between `colorTable[index]` and
`colorTable[index + 1]`.  A lookup that yields `undefined` makes the
subsequent `hexToRgb` throw, embedded as `none`. -/
def getColor (colorTable : List String) (value : ℚ) : Option String :=
  let scaledValue : ℚ := value * ((colorTable.length : ℚ) - 1)
  let index : ℤ := ⌊scaledValue⌋
  let factor : ℚ := scaledValue - (index : ℚ)
  if (colorTable.length : ℤ) - 1 ≤ index then
    jsGet colorTable ((colorTable.length : ℤ) - 1)
  else
    match jsGet colorTable index, jsGet colorTable (index + 1) with
    | some c1, some c2 => some (interpolateColor c1 c2 factor)
    | _, _ => none

/-! ## Number formatting (toFixed) -/

/-- Structural-recursion worker for base-10 printing. -/
def natToDecAux : ℕ → ℕ → List Char
  | 0, _ => []
  | fuel + 1, n =>
    if n < 10 then [Nat.digitChar n]
    else natToDecAux fuel (n / 10) ++ [Nat.digitChar (n % 10)]

/-- Base-10 digits of `n`. -/
def natToDecDigits (n : ℕ) : List Char := natToDecAux (n + 1) n

/-- Decimal layout of `toFixed`: print `n` with a decimal point `f` digits
from the right (zero-padding so the integer part is nonempty). -/
def fixedFormat (n f : ℕ) : String :=
  if f = 0 then String.mk (natToDecDigits n)
  else
    let ds := natToDecDigits n
    let ds := if ds.length ≤ f then List.replicate (f + 1 - ds.length) '0' ++ ds else ds
    String.mk (ds.take (ds.length - f) ++ '.' :: ds.drop (ds.length - f))

/-- `Number.prototype.toFixed(f)` on exact rationals: pick the integer `n`
with `n / 10^f` closest to `x` (ties toward the larger `n`), after peeling a
sign prefix. -/
def jsToFixed (x : ℚ) (f : ℕ) : String :=
  if x < 0 then "-" ++ fixedFormat (⌊-x * 10 ^ f + 1 / 2⌋).toNat f
  else fixedFormat (⌊x * 10 ^ f + 1 / 2⌋).toNat f

/-! ## Widget state -/

/-- `this.margin.top`. -/
def marginTop : ℚ := 20

/-- `this.margin.right`. -/
def marginRight : ℚ := 20

/-- `this.margin.bottom`. -/
def marginBottom : ℚ := 50

/-- `this.margin.left`. -/
def marginLeft : ℚ := 40

/-- One grid sample `{ R, theta, value }`. -/
structure Sample where
  R : ℚ
  theta : ℚ
  value : ℚ
deriving DecidableEq

/-- One annotated point `{ R, theta }`. -/
structure AnnotatedPoint where
  R : ℚ
  theta : ℚ
deriving DecidableEq

/-- The mutable instance state of a `StressDomain` widget. -/
structure Widget where
  width : ℚ
  height : ℚ
  scheme : String
  rDivisions : ℚ
  thetaDivisions : ℚ
  data : List Sample
  points : List AnnotatedPoint
deriving DecidableEq

/-- `this.graphWidth = w - margin.left - margin.right`. -/
def graphWidth (w : Widget) : ℚ := w.width - marginLeft - marginRight

/-- `this.graphHeight = h - margin.top - margin.bottom`. -/
def graphHeight (w : Widget) : ℚ := w.height - marginTop - marginBottom

/-- `scaleX(value) = (value / 3) * graphWidth + margin.left`. -/
def scaleX (w : Widget) (value : ℚ) : ℚ := value / 3 * graphWidth w + marginLeft

/-- `scaleY(value) = graphHeight - (value / 180) * graphHeight + margin.top`. -/
def scaleY (w : Widget) (value : ℚ) : ℚ :=
  graphHeight w - value / 180 * graphHeight w + marginTop

/-- The constructor's default 51×51 grid: for `i, j ∈ [0, 50]`, the sample
`{ R: (i/50)*3, theta: (j/50)*180, value: Math.random() }`; `rnd k` stands
for the value of the k-th `Math.random()` call. -/
def initData (rnd : ℕ → ℚ) : List Sample :=
  (List.range 51).flatMap fun (i : ℕ) =>
    (List.range 51).map fun (j : ℕ) =>
      { R := (i : ℚ) / 50 * 3, theta := (j : ℚ) / 50 * 180, value := rnd (i * 51 + j) }

/-- The constructor, after canvas binding and device-pixel-ratio correction
(which keeps the logical size `width × height`): default scheme `viridis`,
50 divisions each way, seeded random grid, empty point list. -/
def mkWidget (width height : ℚ) (rnd : ℕ → ℚ) : Widget :=
  { width := width, height := height, scheme := "viridis",
    rDivisions := 50, thetaDivisions := 50,
    data := initData rnd, points := [] }

/-! ## Rendering as an event trace -/

/-- One canvas side effect of a render pass.  `cell` is the filled grid
rectangle (carrying its resolved fill color, `none` when color resolution
fails), `circle` the point marker, `rect` the transparent regime rectangle
painted by `drawPoint`, `logError` a `console.error` diagnostic. -/
inductive RenderEvent where
  | clear (x y w h : ℚ)
  | cell (x y w h : ℚ) (color : Option String)
  | circle (x y radius : ℚ)
  | rect (x y w h : ℚ)
  | line (x1 y1 x2 y2 : ℚ)
  | text (s : String) (x y : ℚ)
  | logError (msg : String)
deriving DecidableEq

/-- The three fault regimes named by the widget. -/
inductive Regime where
  | normal
  | strikeSlip
  | reverse
deriving DecidableEq

/-- The regime selected by `drawPoint`'s branch structure:
Normal for `R ∈ [0,1)`, Strike-slip for `R ∈ [1,2)`, Reverse for `R ∈ [2,3]`,
no regime otherwise. -/
def regimeOf (R : ℚ) : Option Regime :=
  if 0 ≤ R ∧ R < 1 then some Regime.normal
  else if 1 ≤ R ∧ R < 2 then some Regime.strikeSlip
  else if 2 ≤ R ∧ R ≤ 3 then some Regime.reverse
  else none

/-- The `phiPrime` value computed by the same branches: `R`, `2 - R`, `R - 2`
in the three regimes. -/
def phiPrime (R : ℚ) : Option ℚ :=
  if 0 ≤ R ∧ R < 1 then some R
  else if 1 ≤ R ∧ R < 2 then some (2 - R)
  else if 2 ≤ R ∧ R ≤ 3 then some (R - 2)
  else none

/-- The label text drawn next to a point:
`` `(R=${R.toFixed(1)}, θ=${theta.toFixed(0)}°)` ``. -/
def pointLabel (R theta : ℚ) : String :=
  "(R=" ++ jsToFixed R 1 ++ ", θ=" ++ jsToFixed theta 0 ++ "°)"

/-- `drawPoint(R, theta)`: compute `phiPrime` by regime; out-of-range `R`
logs `"R value out of range (0-3)"` and returns having drawn nothing;
otherwise draw the 5px marker circle, the transparent regime rectangle, and
the label at `(x - 30, y - 10)`.  The computed `phiPrime` is dropped. -/
def drawPoint (w : Widget) (R theta : ℚ) : List RenderEvent :=
  match phiPrime R with
  | none => [RenderEvent.logError "R value out of range (0-3)"]
  | some _ =>
    let x := scaleX w R
    let y := scaleY w theta
    [RenderEvent.circle x y 5,
     RenderEvent.rect (scaleX w 0) marginTop (graphWidth w / 3) (graphHeight w),
     RenderEvent.text (pointLabel R theta) (x - 30) (y - 10)]

/-- `colorSchemes[this.scheme]`. -/
def getColorScheme (w : Widget) : Option (List String) :=
  List.lookup w.scheme colorSchemes

/-- The widget's `getColor(value)`: resolve the active palette by name, then
interpolate.  An absent palette name makes `colorSchemes[this.scheme]`
`undefined` and the subsequent `.length` access throw, embedded as `none`. -/
def widgetColor (w : Widget) (value : ℚ) : Option String :=
  match getColorScheme w with
  | none => none
  | some table => getColor table value

/-- The grid-cell pass of `drawVisualization`: each sample is filled as a
rectangle one pixel wider/taller than the cell span, centered on its scaled
coordinates. -/
def cellEvents (w : Widget) : List RenderEvent :=
  let rectWidth := graphWidth w / w.rDivisions
  let rectHeight := graphHeight w / w.thetaDivisions
  w.data.map fun p =>
    RenderEvent.cell (scaleX w p.R - rectWidth / 2) (scaleY w p.theta - rectHeight / 2)
      (rectWidth + 1) (rectHeight + 1) (widgetColor w p.value)

/-- The annotated-point pass: `this.points.forEach(p => drawPoint(p.R, p.theta))`. -/
def drawPointsList (w : Widget) (ps : List AnnotatedPoint) : List RenderEvent :=
  ps.flatMap fun p => drawPoint w p.R p.theta

/-- The axes/ticks/labels pass of `drawVisualization`, with the two tick
loops unrolled (R ticks 0..3, theta ticks 0,45,..,180) and the rotated theta
title recorded at its translation point. -/
def axesEvents (w : Widget) : List RenderEvent :=
  [RenderEvent.line marginLeft (w.height - marginBottom)
     (w.width - marginRight) (w.height - marginBottom),
   RenderEvent.line marginLeft marginTop marginLeft (w.height - marginBottom),
   RenderEvent.line (scaleX w 1) marginTop (scaleX w 1) (w.height - marginBottom),
   RenderEvent.line (scaleX w 2) marginTop (scaleX w 2) (w.height - marginBottom),
   RenderEvent.line (scaleX w 0) (w.height - marginBottom) (scaleX w 0) (w.height - marginBottom + 5),
   RenderEvent.text "0" (scaleX w 0) (w.height - marginBottom + 10),
   RenderEvent.line (scaleX w 1) (w.height - marginBottom) (scaleX w 1) (w.height - marginBottom + 5),
   RenderEvent.text "1" (scaleX w 1) (w.height - marginBottom + 10),
   RenderEvent.line (scaleX w 2) (w.height - marginBottom) (scaleX w 2) (w.height - marginBottom + 5),
   RenderEvent.text "2" (scaleX w 2) (w.height - marginBottom + 10),
   RenderEvent.line (scaleX w 3) (w.height - marginBottom) (scaleX w 3) (w.height - marginBottom + 5),
   RenderEvent.text "3" (scaleX w 3) (w.height - marginBottom + 10),
   RenderEvent.line (marginLeft - 5) (scaleY w 0) marginLeft (scaleY w 0),
   RenderEvent.text "0" (marginLeft - 10) (scaleY w 0),
   RenderEvent.line (marginLeft - 5) (scaleY w 45) marginLeft (scaleY w 45),
   RenderEvent.text "45" (marginLeft - 10) (scaleY w 45),
   RenderEvent.line (marginLeft - 5) (scaleY w 90) marginLeft (scaleY w 90),
   RenderEvent.text "90" (marginLeft - 10) (scaleY w 90),
   RenderEvent.line (marginLeft - 5) (scaleY w 135) marginLeft (scaleY w 135),
   RenderEvent.text "135" (marginLeft - 10) (scaleY w 135),
   RenderEvent.line (marginLeft - 5) (scaleY w 180) marginLeft (scaleY w 180),
   RenderEvent.text "180" (marginLeft - 10) (scaleY w 180),
   RenderEvent.text "R" (w.width / 2) (w.height - 10),
   RenderEvent.text "θ°" (marginLeft - 30) (w.height / 2),
   RenderEvent.text "Normal" (scaleX w (1 / 2)) (w.height - 25),
   RenderEvent.text "Strike slip" (scaleX w (3 / 2)) (w.height - 25),
   RenderEvent.text "Reverse" (scaleX w (5 / 2)) (w.height - 25)]

/-- `drawVisualization()`: clear, grid cells, annotated points in insertion
order, axes/ticks/labels. -/
def drawVisualization (w : Widget) : List RenderEvent :=
  RenderEvent.clear 0 0 w.width w.height ::
    (cellEvents w ++ drawPointsList w w.points ++ axesEvents w)

/-- `setColorTable(name)`: store the name unchecked, then one full redraw. -/
def setColorTable (w : Widget) (name : String) : Widget × List RenderEvent :=
  let w2 := { w with scheme := name }
  (w2, drawVisualization w2)

/-- `addPoint(R, theta)`: append `{R, theta}`, then one full redraw. -/
def addPoint (w : Widget) (R theta : ℚ) : Widget × List RenderEvent :=
  let w2 := { w with points := w.points ++ [{ R := R, theta := theta }] }
  (w2, drawVisualization w2)

/-- `setData(data, nR, nTheta)`: replace the sample array (by a spread copy)
and both division counts, then one full redraw. -/
def setData (w : Widget) (data : List Sample) (nR nTheta : ℚ) : Widget × List RenderEvent :=
  let w2 := { w with data := data, rDivisions := nR, thetaDivisions := nTheta }
  (w2, drawVisualization w2)

/-! ## Event-trace observations -/

/-- A point marker (the only circles ever drawn). -/
def isMarker : RenderEvent → Bool
  | RenderEvent.circle _ _ _ => true
  | _ => false

/-- A `console.error` diagnostic. -/
def isErrorLog : RenderEvent → Bool
  | RenderEvent.logError _ => true
  | _ => false

/-- Number of point markers in a trace. -/
def markerCount (evs : List RenderEvent) : ℕ := evs.countP isMarker

/-- Number of logged diagnostics in a trace. -/
def errorCount (evs : List RenderEvent) : ℕ := evs.countP isErrorLog

/-- The strings of all text events in a trace (in order). -/
def labelTexts (evs : List RenderEvent) : List String :=
  evs.filterMap fun e =>
    match e with
    | RenderEvent.text s _ _ => some s
    | _ => none

/-- A well-formed color literal: `'#'` followed by exactly six hex digits. -/
def isHexDigit (c : Char) : Bool :=
  decide (('0' ≤ c ∧ c ≤ '9') ∨ ('a' ≤ c ∧ c ≤ 'f') ∨ ('A' ≤ c ∧ c ≤ 'F'))

/-- Whether a string is `'#'` plus six hex digits. -/
def isHexColor (s : String) : Bool :=
  match s.data with
  | c :: rest => c == '#' && (rest.length == 6 && rest.all isHexDigit)
  | [] => false

/-! ## Array aliasing model for `this.data = [...data]`

JS arrays are heap references; `setData` stores a fresh array holding a
shallow copy of the caller's elements.  `ArrayStore` is a minimal heap whose
references are indices. -/

/-- A heap of sample arrays; a reference is an index into `arrays`. -/
structure ArrayStore where
  arrays : List (List Sample)

/-- Dereference an array (out-of-heap reads give the empty array). -/
def ArrayStore.read (st : ArrayStore) (r : ℕ) : List Sample :=
  (st.arrays.get? r).getD []

/-- Mutate the array behind reference `r` in place (covers element
replacement and appending, which rebind the whole contents). -/
def ArrayStore.write (st : ArrayStore) (r : ℕ) (v : List Sample) : ArrayStore :=
  ⟨st.arrays.set r v⟩

/-- Allocate a fresh array, returning its reference. -/
def ArrayStore.alloc (st : ArrayStore) (v : List Sample) : ArrayStore × ℕ :=
  (⟨st.arrays ++ [v]⟩, st.arrays.length)

/-- Heap semantics of `this.data = [...data]` inside `setData`: allocate a
fresh array containing the caller's current elements and let the widget
reference point at it. -/
def setDataCopy (st : ArrayStore) (callerRef : ℕ) : ArrayStore × ℕ :=
  st.alloc (st.read callerRef)

/-- A concrete 500×500 widget used to exercise the theorems on closed
inputs (the random seed is the constant 1/2). -/
def wExample : Widget := mkWidget 500 500 fun _ => 1 / 2

/-- A concrete one-array heap used to exercise the aliasing theorem. -/
def stExample : ArrayStore := ⟨[[{ R := 1, theta := 2, value := 3 }]]⟩

/-! ## Facts about the printing helpers -/

theorem isHexColor_mk (c : Char) (l : List Char) :
    isHexColor (String.mk (c :: l)) = (c == '#' && (l.length == 6 && l.all isHexDigit)) := rfl

theorem natToHexAux_congr : ∀ f1 f2 n : ℕ, n < f1 → n < f2 →
    natToHexAux f1 n = natToHexAux f2 n := by
  intro f1
  induction f1 with
  | zero => intro f2 n h1 h2; exact absurd h1 (Nat.not_lt_zero n)
  | succ f ih =>
    intro f2 n h1 h2
    cases f2 with
    | zero => exact absurd h2 (Nat.not_lt_zero n)
    | succ g =>
      simp only [natToHexAux]
      by_cases hn : n < 16
      · simp [hn]
      · have hdiv : n / 16 < n := Nat.div_lt_self (by omega) (by omega)
        rw [if_neg hn, if_neg hn, ih g (n / 16) (by omega) (by omega)]

theorem natToHexDigits_eq (n : ℕ) : natToHexDigits n =
    if n < 16 then [Nat.digitChar n]
    else natToHexDigits (n / 16) ++ [Nat.digitChar (n % 16)] := by
  unfold natToHexDigits
  by_cases hn : n < 16
  · rw [if_pos hn]
    simp only [natToHexAux, if_pos hn]
  · have hdiv : n / 16 < n := Nat.div_lt_self (by omega) (by omega)
    rw [if_neg hn]
    conv_lhs => rw [natToHexAux]
    rw [if_neg hn, natToHexAux_congr n (n / 16 + 1) (n / 16) (by omega) (by omega)]

theorem isHexDigit_digitChar : ∀ d : ℕ, d < 16 → isHexDigit (Nat.digitChar d) = true := by
  decide

theorem natToHexDigits_all_hex (n : ℕ) : (natToHexDigits n).all isHexDigit = true := by
  induction n using Nat.strong_induction_on with
  | _ n ih =>
    rw [natToHexDigits_eq]
    by_cases hn : n < 16
    · simp [hn, isHexDigit_digitChar n hn]
    · rw [if_neg hn]
      simp [List.all_append, ih (n / 16) (Nat.div_lt_self (by omega) (by omega)),
        isHexDigit_digitChar (n % 16) (Nat.mod_lt n (by omega))]

theorem natToHexDigits_length : ∀ k n : ℕ, 16 ^ k ≤ n → n < 16 ^ (k + 1) →
    (natToHexDigits n).length = k + 1 := by
  intro k
  induction k with
  | zero =>
    intro n h1 h2
    have hn : n < 16 := by simpa using h2
    rw [natToHexDigits_eq, if_pos hn]
    simp
  | succ k ih =>
    intro n h1 h2
    have h16 : (16 : ℕ) ≤ 16 ^ (k + 1) := by
      calc (16 : ℕ) = 16 ^ 1 := (pow_one 16).symm
        _ ≤ 16 ^ (k + 1) := Nat.pow_le_pow_right (by omega) (by omega)
    have hn : ¬ n < 16 := by omega
    rw [natToHexDigits_eq, if_neg hn, List.length_append]
    have e1 : 16 ^ k ≤ n / 16 := by
      rw [Nat.le_div_iff_mul_le (by omega)]
      calc 16 ^ k * 16 = 16 ^ (k + 1) := by ring
        _ ≤ n := h1
    have e2 : n / 16 < 16 ^ (k + 1) := by
      rw [Nat.div_lt_iff_lt_mul (by omega)]
      calc n < 16 ^ (k + 1 + 1) := h2
        _ = 16 ^ (k + 1) * 16 := by ring
    rw [ih (n / 16) e1 e2]
    simp

theorem rgbToHex_wellformed (r g b : ℤ) (hr0 : 0 ≤ r) (hr : r ≤ 255)
    (hg0 : 0 ≤ g) (hg : g ≤ 255) (hb0 : 0 ≤ b) (hb : b ≤ 255) :
    isHexColor (rgbToHex r g b) = true := by
  have h1 : 16 ^ 6 ≤ (2 ^ 24 + r * 2 ^ 16 + g * 2 ^ 8 + b).toNat := by omega
  have h2 : (2 ^ 24 + r * 2 ^ 16 + g * 2 ^ 8 + b).toNat < 16 ^ 7 := by omega
  have hlen := natToHexDigits_length 6 _ h1 h2
  have hall := natToHexDigits_all_hex (2 ^ 24 + r * 2 ^ 16 + g * 2 ^ 8 + b).toNat
  rw [List.all_eq_true] at hall
  unfold rgbToHex
  rw [isHexColor_mk, Bool.and_eq_true, Bool.and_eq_true, beq_iff_eq, beq_iff_eq]
  refine ⟨rfl, ?_, ?_⟩
  · rw [List.length_drop, hlen]
  · rw [List.all_eq_true]
    exact fun c hc => hall c (List.mem_of_mem_drop hc)

/-! ## Bounds for interpolation and rounding -/

theorem jsRound_bounds (q : ℚ) (h0 : 0 ≤ q) (h255 : q ≤ 255) :
    0 ≤ jsRound q ∧ jsRound q ≤ 255 := by
  unfold jsRound
  constructor
  · exact Int.le_floor.2 (by push_cast; linarith)
  · have : ⌊q + 1 / 2⌋ < 256 := Int.floor_lt.2 (by push_cast; linarith)
    omega

theorem interpolate_bounds (a b f : ℚ) (ha0 : 0 ≤ a) (ha : a ≤ 255)
    (hb0 : 0 ≤ b) (hb : b ≤ 255) (hf0 : 0 ≤ f) (hf1 : f ≤ 1) :
    0 ≤ interpolate a b f ∧ interpolate a b f ≤ 255 := by
  unfold interpolate
  constructor <;> nlinarith

theorem hexToRgb_le (s : String) :
    (hexToRgb s).r ≤ 255 ∧ (hexToRgb s).g ≤ 255 ∧ (hexToRgb s).b ≤ 255 := by
  unfold hexToRgb
  exact ⟨Nat.and_le_right, Nat.and_le_right, Nat.and_le_right⟩

theorem interpolateColor_wellformed (c1 c2 : String) (f : ℚ)
    (hf0 : 0 ≤ f) (hf1 : f ≤ 1) : isHexColor (interpolateColor c1 c2 f) = true := by
  obtain ⟨hr1, hg1, hb1⟩ := hexToRgb_le c1
  obtain ⟨hr2, hg2, hb2⟩ := hexToRgb_le c2
  have cast255 : ∀ n : ℕ, n ≤ 255 → ((n : ℚ) ≤ 255) := by
    intro n hn; exact_mod_cast hn
  unfold interpolateColor
  have br := interpolate_bounds ((hexToRgb c1).r : ℚ) ((hexToRgb c2).r : ℚ) f
    (by positivity) (cast255 _ hr1) (by positivity) (cast255 _ hr2) hf0 hf1
  have bg := interpolate_bounds ((hexToRgb c1).g : ℚ) ((hexToRgb c2).g : ℚ) f
    (by positivity) (cast255 _ hg1) (by positivity) (cast255 _ hg2) hf0 hf1
  have bb := interpolate_bounds ((hexToRgb c1).b : ℚ) ((hexToRgb c2).b : ℚ) f
    (by positivity) (cast255 _ hb1) (by positivity) (cast255 _ hb2) hf0 hf1
  obtain ⟨jr1, jr2⟩ := jsRound_bounds _ br.1 br.2
  obtain ⟨jg1, jg2⟩ := jsRound_bounds _ bg.1 bg.2
  obtain ⟨jb1, jb2⟩ := jsRound_bounds _ bb.1 bb.2
  exact rgbToHex_wellformed _ _ _ jr1 jr2 jg1 jg2 jb1 jb2

theorem jsRound_natCast (n : ℕ) : jsRound (n : ℚ) = (n : ℤ) := by
  unfold jsRound
  have h : ((n : ℚ) + 1 / 2) = 1 / 2 + ((n : ℤ) : ℚ) := by push_cast; ring
  rw [h, Int.floor_add_int]
  norm_num

theorem interpolateColor_zero (c1 c2 : String) :
    interpolateColor c1 c2 0 =
      rgbToHex ((hexToRgb c1).r : ℤ) ((hexToRgb c1).g : ℤ) ((hexToRgb c1).b : ℤ) := by
  unfold interpolateColor interpolate
  simp [jsRound_natCast]

/-! ## Regime classification facts -/

theorem phiPrime_eq_none_iff (R : ℚ) : phiPrime R = none ↔ ¬(0 ≤ R ∧ R ≤ 3) := by
  unfold phiPrime
  split_ifs with h1 h2 h3
  · simp only [reduceCtorEq, false_iff, not_not]
    exact ⟨h1.1, by linarith [h1.2]⟩
  · simp only [reduceCtorEq, false_iff, not_not]
    exact ⟨by linarith [h2.1], by linarith [h2.2]⟩
  · simp only [reduceCtorEq, false_iff, not_not]
    exact ⟨by linarith [h3.1], h3.2⟩
  · simp only [true_iff]
    push_neg at h1 h2 h3
    intro hc
    have g1 := h1 hc.1
    have g2 := h2 g1
    have g3 := h3 g2
    linarith [hc.2]

/-! ## Claim theorems -/

/-- C4: for `a < b` in `[0,3]`, `scaleX` is strictly increasing, and for
`a < b` in `[0,180]`, `scaleY` is strictly decreasing (inverted axis),
provided the derived graph width and height are positive. -/
theorem scaleX_scaleY_monotone (w : Widget) (a b : ℚ)
    (hgw : 0 < graphWidth w) (hgh : 0 < graphHeight w) :
    (0 ≤ a → b ≤ 3 → a < b → scaleX w a < scaleX w b) ∧
    (0 ≤ a → b ≤ 180 → a < b → scaleY w b < scaleY w a) := by
  constructor
  · intro _ _ hab
    unfold scaleX
    have h3 : a / 3 < b / 3 := by linarith
    exact add_lt_add_right (mul_lt_mul_of_pos_right h3 hgw) _
  · intro _ _ hab
    unfold scaleY
    have h180 : a / 180 < b / 180 := by linarith
    have := mul_lt_mul_of_pos_right h180 hgh
    linarith

/-- C4 witness: on the concrete 500×500 widget the graph rectangle is
positive and the two strict inequalities hold at sample arguments. -/
theorem scaleX_scaleY_monotone_witness :
    0 < graphWidth wExample ∧ 0 < graphHeight wExample ∧
    scaleX wExample 1 < scaleX wExample 2 ∧ scaleY wExample 100 < scaleY wExample 50 := by
  have h1 : 0 < graphWidth wExample := by
    norm_num [graphWidth, wExample, mkWidget, marginLeft, marginRight]
  have h2 : 0 < graphHeight wExample := by
    norm_num [graphHeight, wExample, mkWidget, marginTop, marginBottom]
  refine ⟨h1, h2, ?_, ?_⟩
  · exact (scaleX_scaleY_monotone wExample 1 2 h1 h2).1 (by norm_num) (by norm_num) (by norm_num)
  · exact (scaleX_scaleY_monotone wExample 50 100 h1 h2).2 (by norm_num) (by norm_num) (by norm_num)

/-- C3: drawing a point with `R` outside `[0,3]` only logs the diagnostic
`"R value out of range (0-3)"` and draws nothing, and within a render pass
every other point of the insertion-ordered list is still drawn around it. -/
theorem drawPoint_out_of_range_skips (w : Widget) (R theta : ℚ)
    (hR : ¬(0 ≤ R ∧ R ≤ 3)) :
    drawPoint w R theta = [RenderEvent.logError "R value out of range (0-3)"] ∧
    ∀ ps1 ps2 : List AnnotatedPoint,
      drawPointsList w (ps1 ++ { R := R, theta := theta } :: ps2) =
        drawPointsList w ps1 ++
          RenderEvent.logError "R value out of range (0-3)" :: drawPointsList w ps2 := by
  have hnone : phiPrime R = none := (phiPrime_eq_none_iff R).2 hR
  have hdp : drawPoint w R theta = [RenderEvent.logError "R value out of range (0-3)"] := by
    unfold drawPoint
    rw [hnone]
  refine ⟨hdp, fun ps1 ps2 => ?_⟩
  unfold drawPointsList
  rw [List.flatMap_append, List.flatMap_cons]
  simp only at hdp ⊢
  rw [hdp]
  simp

/-- C3 witness: the point `(R, theta) = (4, 0)` is out of range and its draw
produces exactly the logged diagnostic. -/
theorem drawPoint_out_of_range_skips_witness :
    ¬((0 : ℚ) ≤ 4 ∧ (4 : ℚ) ≤ 3) ∧
    drawPoint wExample 4 0 = [RenderEvent.logError "R value out of range (0-3)"] := by
  have h : ¬((0 : ℚ) ≤ 4 ∧ (4 : ℚ) ≤ 3) := by norm_num
  exact ⟨h, (drawPoint_out_of_range_skips wExample 4 0 h).1⟩

/-- C7: `drawPoint` classifies `R ∈ [0,3]` into exactly one regime by
half-open membership (Normal `[0,1)`, Strike-slip `[1,2)`, Reverse `[2,3]`),
computing `phiPrime` as `R`, `2 - R`, `R - 2` respectively, and the emitted
events are expressed without `phiPrime` (it is computed but not consumed). -/
theorem drawPoint_regime_classification (w : Widget) (R theta : ℚ)
    (h0 : 0 ≤ R) (h3 : R ≤ 3) :
    (R < 1 → regimeOf R = some Regime.normal ∧ phiPrime R = some R) ∧
    (1 ≤ R → R < 2 → regimeOf R = some Regime.strikeSlip ∧ phiPrime R = some (2 - R)) ∧
    (2 ≤ R → regimeOf R = some Regime.reverse ∧ phiPrime R = some (R - 2)) ∧
    drawPoint w R theta =
      [RenderEvent.circle (scaleX w R) (scaleY w theta) 5,
       RenderEvent.rect (scaleX w 0) marginTop (graphWidth w / 3) (graphHeight w),
       RenderEvent.text (pointLabel R theta) (scaleX w R - 30) (scaleY w theta - 10)] := by
  refine ⟨?_, ?_, ?_, ?_⟩
  · intro h1
    unfold regimeOf phiPrime
    rw [if_pos ⟨h0, h1⟩, if_pos ⟨h0, h1⟩]
    exact ⟨rfl, rfl⟩
  · intro ha hb
    have hn : ¬(0 ≤ R ∧ R < 1) := by intro hc; linarith [hc.2]
    unfold regimeOf phiPrime
    rw [if_neg hn, if_pos ⟨ha, hb⟩, if_neg hn, if_pos ⟨ha, hb⟩]
    exact ⟨rfl, rfl⟩
  · intro ha
    have hn1 : ¬(0 ≤ R ∧ R < 1) := by intro hc; linarith [hc.2]
    have hn2 : ¬(1 ≤ R ∧ R < 2) := by intro hc; linarith [hc.2]
    unfold regimeOf phiPrime
    rw [if_neg hn1, if_neg hn2, if_pos ⟨ha, h3⟩, if_neg hn1, if_neg hn2, if_pos ⟨ha, h3⟩]
    exact ⟨rfl, rfl⟩
  · obtain ⟨p, hp⟩ : ∃ p, phiPrime R = some p := by
      cases hphi : phiPrime R with
      | none => exact absurd ((phiPrime_eq_none_iff R).1 hphi) (not_not_intro ⟨h0, h3⟩)
      | some p => exact ⟨p, rfl⟩
    unfold drawPoint
    rw [hp]

/-- C7 witness: at `R = 1/2` the hypotheses hold and the Normal-regime
branch applies with `phiPrime = R`. -/
theorem drawPoint_regime_classification_witness :
    (0 : ℚ) ≤ 1 / 2 ∧ (1 / 2 : ℚ) ≤ 3 ∧
    regimeOf (1 / 2) = some Regime.normal ∧ phiPrime (1 / 2) = some (1 / 2) := by
  have ha : (0 : ℚ) ≤ 1 / 2 := by norm_num
  have hb : (1 / 2 : ℚ) ≤ 3 := by norm_num
  have h := (drawPoint_regime_classification wExample (1 / 2) 60 ha hb).1 (by norm_num)
  exact ⟨ha, hb, h.1, h.2⟩

/-! ## getColor at and beyond the ends of the palette -/

theorem jsGet_last (table : List String) (h : 1 ≤ table.length) :
    jsGet table ((table.length : ℤ) - 1) = table.getLast? := by
  unfold jsGet
  rw [if_pos (by omega)]
  have ht : ((table.length : ℤ) - 1).toNat = table.length - 1 := by omega
  rw [ht, List.getLast?_eq_getElem?]
  simp [List.get?_eq_getElem?]

theorem getColor_of_clamp (table : List String) (value : ℚ) (hlen : 1 ≤ table.length)
    (hc : (table.length : ℤ) - 1 ≤ ⌊value * ((table.length : ℚ) - 1)⌋) :
    getColor table value = table.getLast? := by
  simp only [getColor]
  rw [if_pos hc]
  exact jsGet_last table hlen

theorem getColor_of_neg (table : List String) (value : ℚ) (hlen : 2 ≤ table.length)
    (hv : value < 0) : getColor table value = none := by
  have hl : (2 : ℚ) ≤ (table.length : ℚ) := by exact_mod_cast hlen
  have hpos : (0 : ℚ) < (table.length : ℚ) - 1 := by linarith
  have hneg : value * ((table.length : ℚ) - 1) < 0 := mul_neg_of_neg_of_pos hv hpos
  have hidx : ⌊value * ((table.length : ℚ) - 1)⌋ < 0 := by
    rw [Int.floor_lt]
    push_cast
    exact hneg
  have hlen2 : (2 : ℤ) ≤ (table.length : ℤ) := by exact_mod_cast hlen
  simp only [getColor, jsGet]
  rw [if_neg (by omega), if_neg (by omega : ¬ (0 : ℤ) ≤ ⌊value * ((table.length : ℚ) - 1)⌋)]

/-- C2 counterexample: the sample value `-1/2` is below `[0,1]`, yet
`getColor` on the viridis palette does not return any palette color there:
the negative index lookup fails (JS `undefined` makes `hexToRgb` throw). -/
theorem getColor_negative_value_cex :
    ((-(1 / 2) : ℚ) < 0) ∧ getColor viridisStops (-(1 / 2)) = none := by
  refine ⟨by norm_num, getColor_of_neg viridisStops _ (by decide) (by norm_num)⟩

/-- C2 (amended): out-of-range sample values are clamped only at the top:
every `value > 1` (and in general every value whose scaled floor reaches
`n - 1`) yields the palette's last stop unchanged, while every `value < 0`
makes the color lookup fail (negative array index, no color returned). -/
theorem getColor_clamps_top_only (table : List String) (value : ℚ) (hlen : 2 ≤ table.length) :
    (1 < value → getColor table value = table.getLast?) ∧
    (value < 0 → getColor table value = none) ∧
    ((table.length : ℤ) - 1 ≤ ⌊value * ((table.length : ℚ) - 1)⌋ →
      getColor table value = table.getLast?) := by
  refine ⟨?_, fun hv => getColor_of_neg table value hlen hv,
    fun hc => getColor_of_clamp table value (by omega) hc⟩
  intro hv
  apply getColor_of_clamp table value (by omega)
  rw [Int.le_floor]
  have hl : (2 : ℚ) ≤ (table.length : ℚ) := by exact_mod_cast hlen
  push_cast
  nlinarith

/-- C2 witness: on the viridis palette, the out-of-range value `2 > 1` is
clamped to the last stop. -/
theorem getColor_clamps_top_only_witness :
    2 ≤ viridisStops.length ∧ (1 : ℚ) < 2 ∧
    getColor viridisStops 2 = viridisStops.getLast? := by
  have h : 2 ≤ viridisStops.length := by decide
  exact ⟨h, by norm_num, (getColor_clamps_top_only viridisStops 2 h).1 (by norm_num)⟩

/-! ## Counting events in a render pass -/

theorem phiPrime_isSome_of_range (R : ℚ) (h : 0 ≤ R ∧ R ≤ 3) :
    ∃ p, phiPrime R = some p := by
  cases hphi : phiPrime R with
  | none => exact absurd ((phiPrime_eq_none_iff R).1 hphi) (not_not_intro h)
  | some p => exact ⟨p, rfl⟩

theorem errorCount_append (l1 l2 : List RenderEvent) :
    errorCount (l1 ++ l2) = errorCount l1 + errorCount l2 :=
  List.countP_append _ _ _

theorem markerCount_append (l1 l2 : List RenderEvent) :
    markerCount (l1 ++ l2) = markerCount l1 + markerCount l2 :=
  List.countP_append _ _ _

theorem errorCount_clear_cons (x y a b : ℚ) (l : List RenderEvent) :
    errorCount (RenderEvent.clear x y a b :: l) = errorCount l := by
  simp [errorCount, List.countP_cons, isErrorLog]

theorem markerCount_clear_cons (x y a b : ℚ) (l : List RenderEvent) :
    markerCount (RenderEvent.clear x y a b :: l) = markerCount l := by
  simp [markerCount, List.countP_cons, isMarker]

theorem errorCount_cellEvents (w : Widget) : errorCount (cellEvents w) = 0 := by
  unfold errorCount cellEvents
  rw [List.countP_map]
  exact List.countP_eq_zero.2 fun s _ => by simp [Function.comp, isErrorLog]

theorem markerCount_cellEvents (w : Widget) : markerCount (cellEvents w) = 0 := by
  unfold markerCount cellEvents
  rw [List.countP_map]
  exact List.countP_eq_zero.2 fun s _ => by simp [Function.comp, isMarker]

theorem errorCount_axesEvents (w : Widget) : errorCount (axesEvents w) = 0 := rfl

theorem markerCount_axesEvents (w : Widget) : markerCount (axesEvents w) = 0 := rfl

theorem markerCount_drawPoint (w : Widget) (R theta : ℚ) :
    markerCount (drawPoint w R theta) = if 0 ≤ R ∧ R ≤ 3 then 1 else 0 := by
  by_cases h : 0 ≤ R ∧ R ≤ 3
  · obtain ⟨p, hp⟩ := phiPrime_isSome_of_range R h
    unfold drawPoint
    rw [hp, if_pos h]
    rfl
  · have hnone := (phiPrime_eq_none_iff R).2 h
    unfold drawPoint
    rw [hnone, if_neg h]
    rfl

theorem errorCount_drawPoint (w : Widget) (R theta : ℚ) :
    errorCount (drawPoint w R theta) = if 0 ≤ R ∧ R ≤ 3 then 0 else 1 := by
  by_cases h : 0 ≤ R ∧ R ≤ 3
  · obtain ⟨p, hp⟩ := phiPrime_isSome_of_range R h
    unfold drawPoint
    rw [hp, if_pos h]
    rfl
  · have hnone := (phiPrime_eq_none_iff R).2 h
    unfold drawPoint
    rw [hnone, if_neg h]
    rfl

theorem drawPointsList_append (w : Widget) (ps1 ps2 : List AnnotatedPoint) :
    drawPointsList w (ps1 ++ ps2) = drawPointsList w ps1 ++ drawPointsList w ps2 := by
  unfold drawPointsList
  exact List.flatMap_append ps1 ps2 _

theorem drawPointsList_singleton (w : Widget) (R theta : ℚ) :
    drawPointsList w [{ R := R, theta := theta }] = drawPoint w R theta := by
  simp [drawPointsList]

/-- C5: `setData` replaces the sample sequence and both grid dimensions
exactly, leaves everything else alone, triggers a full redraw of the updated
state, and performs no consistency check: any sequence/dimension combination
is accepted and never adds a reported error to the redraw. -/
theorem setData_replaces_state (w : Widget) (data : List Sample) (nR nTheta : ℚ) :
    (setData w data nR nTheta).1.data = data ∧
    (setData w data nR nTheta).1.rDivisions = nR ∧
    (setData w data nR nTheta).1.thetaDivisions = nTheta ∧
    (setData w data nR nTheta).1.width = w.width ∧
    (setData w data nR nTheta).1.height = w.height ∧
    (setData w data nR nTheta).1.scheme = w.scheme ∧
    (setData w data nR nTheta).1.points = w.points ∧
    (setData w data nR nTheta).2 = drawVisualization (setData w data nR nTheta).1 ∧
    errorCount (setData w data nR nTheta).2 = errorCount (drawVisualization w) := by
  refine ⟨rfl, rfl, rfl, rfl, rfl, rfl, rfl, rfl, ?_⟩
  show errorCount (drawVisualization (setData w data nR nTheta).1) =
    errorCount (drawVisualization w)
  unfold drawVisualization
  rw [show axesEvents (setData w data nR nTheta).1 = axesEvents w from rfl,
    show drawPointsList (setData w data nR nTheta).1 (setData w data nR nTheta).1.points =
      drawPointsList w w.points from rfl]
  rw [errorCount_clear_cons, errorCount_clear_cons, errorCount_append, errorCount_append,
    errorCount_append, errorCount_append, errorCount_cellEvents, errorCount_cellEvents]

/-- C6: `addPoint` appends exactly the one entry `{R, theta}` with no range
validation, changes nothing else, triggers one full redraw, and that redraw
gains one marker when `R ∈ [0,3]` and zero markers plus one logged error
when `R` is out of range. -/
theorem addPoint_appends_and_redraws (w : Widget) (R theta : ℚ) :
    (addPoint w R theta).1.points = w.points ++ [{ R := R, theta := theta }] ∧
    (addPoint w R theta).1.width = w.width ∧
    (addPoint w R theta).1.height = w.height ∧
    (addPoint w R theta).1.scheme = w.scheme ∧
    (addPoint w R theta).1.rDivisions = w.rDivisions ∧
    (addPoint w R theta).1.thetaDivisions = w.thetaDivisions ∧
    (addPoint w R theta).1.data = w.data ∧
    (addPoint w R theta).2 = drawVisualization (addPoint w R theta).1 ∧
    markerCount (addPoint w R theta).2 =
      markerCount (drawVisualization w) + (if 0 ≤ R ∧ R ≤ 3 then 1 else 0) ∧
    errorCount (addPoint w R theta).2 =
      errorCount (drawVisualization w) + (if 0 ≤ R ∧ R ≤ 3 then 0 else 1) := by
  refine ⟨rfl, rfl, rfl, rfl, rfl, rfl, rfl, rfl, ?_, ?_⟩
  · show markerCount (drawVisualization (addPoint w R theta).1) =
      markerCount (drawVisualization w) + (if 0 ≤ R ∧ R ≤ 3 then 1 else 0)
    unfold drawVisualization
    rw [show axesEvents (addPoint w R theta).1 = axesEvents w from rfl,
      show drawPointsList (addPoint w R theta).1 (addPoint w R theta).1.points =
        drawPointsList w (w.points ++ [{ R := R, theta := theta }]) from rfl,
      show cellEvents (addPoint w R theta).1 = cellEvents w from rfl]
    rw [drawPointsList_append, drawPointsList_singleton]
    rw [markerCount_clear_cons, markerCount_clear_cons, markerCount_append, markerCount_append,
      markerCount_append, markerCount_append, markerCount_append, markerCount_cellEvents,
      markerCount_axesEvents, markerCount_drawPoint]
    omega
  · show errorCount (drawVisualization (addPoint w R theta).1) =
      errorCount (drawVisualization w) + (if 0 ≤ R ∧ R ≤ 3 then 0 else 1)
    unfold drawVisualization
    rw [show axesEvents (addPoint w R theta).1 = axesEvents w from rfl,
      show drawPointsList (addPoint w R theta).1 (addPoint w R theta).1.points =
        drawPointsList w (w.points ++ [{ R := R, theta := theta }]) from rfl,
      show cellEvents (addPoint w R theta).1 = cellEvents w from rfl]
    rw [drawPointsList_append, drawPointsList_singleton]
    rw [errorCount_clear_cons, errorCount_clear_cons, errorCount_append, errorCount_append,
      errorCount_append, errorCount_append, errorCount_append, errorCount_cellEvents,
      errorCount_axesEvents, errorCount_drawPoint]
    omega

/-- C9: `setColorTable` stores any name without validating it against the
palette table, changes nothing else, triggers a full redraw, and for a name
absent from the table the failure surfaces as a failing lookup at the next
color resolution (`getColor` via the scheme table), not in the setter
itself. -/
theorem setColorTable_no_validation (w : Widget) (name : String) :
    (setColorTable w name).1.scheme = name ∧
    (setColorTable w name).1.width = w.width ∧
    (setColorTable w name).1.height = w.height ∧
    (setColorTable w name).1.rDivisions = w.rDivisions ∧
    (setColorTable w name).1.thetaDivisions = w.thetaDivisions ∧
    (setColorTable w name).1.data = w.data ∧
    (setColorTable w name).1.points = w.points ∧
    (setColorTable w name).2 = drawVisualization (setColorTable w name).1 ∧
    (List.lookup name colorSchemes = none →
      ∀ value : ℚ, widgetColor (setColorTable w name).1 value = none) := by
  refine ⟨rfl, rfl, rfl, rfl, rfl, rfl, rfl, rfl, ?_⟩
  intro hnone value
  unfold widgetColor getColorScheme
  rw [show (setColorTable w name).1.scheme = name from rfl, hnone]

/-- C9 witness: the name `"magma"` is absent from the palette table; setting
it succeeds and stores the name, and the subsequent color resolution fails. -/
theorem setColorTable_no_validation_witness :
    (setColorTable wExample "magma").1.scheme = "magma" ∧
    List.lookup "magma" colorSchemes = none ∧
    widgetColor (setColorTable wExample "magma").1 (1 / 2) = none := by
  have hnone : List.lookup "magma" colorSchemes = none := by decide
  exact ⟨(setColorTable_no_validation wExample "magma").1, hnone,
    (setColorTable_no_validation wExample "magma").2.2.2.2.2.2.2.2 hnone (1 / 2)⟩

/-- C10: `this.data = [...data]` stores a shallow copy in a fresh array, so
mutating the caller's array after `setData` returns leaves the widget's
stored sample sequence unchanged. -/
theorem setDataCopy_isolated (st : ArrayStore) (r : ℕ) (v : List Sample)
    (hr : r < st.arrays.length) :
    (setDataCopy st r).1.read (setDataCopy st r).2 = st.read r ∧
    ((setDataCopy st r).1.write r v).read (setDataCopy st r).2 = st.read r := by
  constructor
  · show ArrayStore.read ⟨st.arrays ++ [st.read r]⟩ st.arrays.length = st.read r
    unfold ArrayStore.read
    simp [List.get?_eq_getElem?, List.getElem?_concat_length]
  · show ArrayStore.read ⟨(st.arrays ++ [st.read r]).set r v⟩ st.arrays.length = st.read r
    have hset : (st.arrays ++ [st.read r]).set r v = st.arrays.set r v ++ [st.read r] := by
      rw [List.set_append]
      simp [hr]
    have hlen : st.arrays.length = (st.arrays.set r v).length := (List.length_set _ _ _).symm
    rw [hset]
    show ((st.arrays.set r v ++ [st.read r]).get? st.arrays.length).getD [] = st.read r
    rw [List.get?_eq_getElem?, hlen, List.getElem?_concat_length]
    rfl

/-- C10 witness: on a one-array heap, overwriting the caller's array after
the copying `setData` leaves the widget's stored sequence at its snapshot. -/
theorem setDataCopy_isolated_witness :
    0 < stExample.arrays.length ∧
    ((setDataCopy stExample 0).1.write 0 []).read (setDataCopy stExample 0).2 =
      stExample.read 0 := by
  have h : 0 < stExample.arrays.length := by decide
  exact ⟨h, (setDataCopy_isolated stExample 0 [] h).2⟩

/-! ## getColor inside the palette -/

theorem jsGet_some (l : List String) (i : ℤ) (h0 : 0 ≤ i) (hlt : i < (l.length : ℤ)) :
    ∃ c, jsGet l i = some c := by
  unfold jsGet
  rw [if_pos h0]
  have hn : i.toNat < l.length := by omega
  refine ⟨l.get ⟨i.toNat, hn⟩, ?_⟩
  rw [List.get?_eq_getElem?, List.getElem?_eq_getElem hn]
  rfl

theorem getColor_wf (table : List String) (value : ℚ) (hlen : 2 ≤ table.length)
    (hall : table.all isHexColor = true) (h0 : 0 ≤ value) (h1 : value ≤ 1) :
    ∃ s, getColor table value = some s ∧ isHexColor s = true := by
  have hl2 : (2 : ℚ) ≤ (table.length : ℚ) := by exact_mod_cast hlen
  have hlz : (2 : ℤ) ≤ (table.length : ℤ) := by exact_mod_cast hlen
  rcases eq_or_lt_of_le h1 with heq | hlt
  · subst heq
    have hne : table ≠ [] := by
      intro hnil
      rw [hnil] at hlen
      simp at hlen
    refine ⟨table.getLast hne, ?_, ?_⟩
    · have hfl : ⌊(1 : ℚ) * ((table.length : ℚ) - 1)⌋ = (table.length : ℤ) - 1 := by
        have hcast : (1 : ℚ) * ((table.length : ℚ) - 1) = (((table.length : ℤ) - 1 : ℤ) : ℚ) := by
          push_cast
          ring
        rw [hcast, Int.floor_intCast]
      rw [getColor_of_clamp table 1 (by omega) (by rw [hfl])]
      exact List.getLast?_eq_getLast table hne
    · rw [List.all_eq_true] at hall
      exact hall _ (List.getLast_mem hne)
  · set scaled := value * ((table.length : ℚ) - 1) with hscaled
    have hspos : 0 ≤ scaled := mul_nonneg h0 (by linarith)
    have hslt : scaled < (table.length : ℚ) - 1 := by
      calc scaled = value * ((table.length : ℚ) - 1) := rfl
        _ < 1 * ((table.length : ℚ) - 1) := mul_lt_mul_of_pos_right hlt (by linarith)
        _ = (table.length : ℚ) - 1 := one_mul _
    have hidx0 : 0 ≤ ⌊scaled⌋ := Int.le_floor.2 (by push_cast; linarith)
    have hidxlt : ⌊scaled⌋ < (table.length : ℤ) - 1 := Int.floor_lt.2 (by push_cast; linarith)
    obtain ⟨c1, hc1⟩ := jsGet_some table ⌊scaled⌋ hidx0 (by omega)
    obtain ⟨c2, hc2⟩ := jsGet_some table (⌊scaled⌋ + 1) (by omega) (by omega)
    have hf0 : 0 ≤ scaled - (⌊scaled⌋ : ℚ) := by
      have := Int.floor_le scaled
      linarith
    have hf1 : scaled - (⌊scaled⌋ : ℚ) ≤ 1 := by
      have := Int.lt_floor_add_one scaled
      linarith
    refine ⟨interpolateColor c1 c2 (scaled - (⌊scaled⌋ : ℚ)), ?_,
      interpolateColor_wellformed c1 c2 _ hf0 hf1⟩
    simp only [getColor]
    rw [← hscaled, if_neg (by omega : ¬ (table.length : ℤ) - 1 ≤ ⌊scaled⌋), hc1, hc2]

theorem getColor_zero (table : List String) (c1 c2 : String) (hlen : 2 ≤ table.length)
    (h1 : table.get? 0 = some c1) (h2 : table.get? 1 = some c2) :
    getColor table 0 = some (interpolateColor c1 c2 0) := by
  have hlz : (2 : ℤ) ≤ (table.length : ℤ) := by exact_mod_cast hlen
  have hz : (0 : ℚ) * ((table.length : ℚ) - 1) = 0 := by ring
  have hg1 : jsGet table 0 = some c1 := by
    unfold jsGet
    rw [if_pos le_rfl]
    exact h1
  have hg2 : jsGet table (0 + 1) = some c2 := by
    unfold jsGet
    rw [if_pos (by omega)]
    exact h2
  simp only [getColor]
  rw [hz, Int.floor_zero, if_neg (by omega : ¬ (table.length : ℤ) - 1 ≤ 0), hg1, hg2]
  norm_num

theorem getColor_one (table : List String) (hlen : 2 ≤ table.length) :
    getColor table 1 = table.getLast? := by
  apply getColor_of_clamp table 1 (by omega)
  have hcast : (1 : ℚ) * ((table.length : ℚ) - 1) = (((table.length : ℤ) - 1 : ℤ) : ℚ) := by
    push_cast
    ring
  rw [hcast, Int.floor_intCast]

/-- C1: for every `value ∈ [0,1]` and every palette of the fixed table,
`getColor` returns a well-formed `#`-plus-6-hex-digit color string;
`getColor 0` is the palette's first stop and `getColor 1` its last stop. -/
theorem getColor_wellformed_endpoints (name : String) (table : List String) (value : ℚ)
    (hlook : List.lookup name colorSchemes = some table) (h0 : 0 ≤ value) (h1 : value ≤ 1) :
    (∃ s, getColor table value = some s ∧ isHexColor s = true) ∧
    getColor table 0 = table.head? ∧
    getColor table 1 = table.getLast? := by
  have htab : table = viridisStops ∨ table = plasmaStops ∨ table = infernoStops ∨
      table = bwStops := by
    simp only [colorSchemes, List.lookup] at hlook
    split at hlook
    · exact Or.inl (Option.some.inj hlook).symm
    · split at hlook
      · exact Or.inr (Or.inl (Option.some.inj hlook).symm)
      · split at hlook
        · exact Or.inr (Or.inr (Or.inl (Option.some.inj hlook).symm))
        · split at hlook
          · exact Or.inr (Or.inr (Or.inr (Option.some.inj hlook).symm))
          · exact absurd hlook (by simp)
  rcases htab with h | h | h | h <;> subst h
  · refine ⟨getColor_wf _ value (by decide) (by decide) h0 h1, ?_, getColor_one _ (by decide)⟩
    rw [getColor_zero viridisStops "#440154" "#482878" (by decide) (by decide) (by decide), interpolateColor_zero]
    decide
  · refine ⟨getColor_wf _ value (by decide) (by decide) h0 h1, ?_, getColor_one _ (by decide)⟩
    rw [getColor_zero plasmaStops "#0d0887" "#46039f" (by decide) (by decide) (by decide), interpolateColor_zero]
    decide
  · refine ⟨getColor_wf _ value (by decide) (by decide) h0 h1, ?_, getColor_one _ (by decide)⟩
    rw [getColor_zero infernoStops "#000004" "#1b0c41" (by decide) (by decide) (by decide), interpolateColor_zero]
    decide
  · refine ⟨getColor_wf _ value (by decide) (by decide) h0 h1, ?_, getColor_one _ (by decide)⟩
    rw [getColor_zero bwStops "#000000" "#ffffff" (by decide) (by decide) (by decide), interpolateColor_zero]
    decide

/-- C1 witness: on the viridis palette at `value = 1/2` the hypotheses hold
and a well-formed color comes back. -/
theorem getColor_wellformed_endpoints_witness :
    List.lookup "viridis" colorSchemes = some viridisStops ∧
    (0 : ℚ) ≤ 1 / 2 ∧ (1 / 2 : ℚ) ≤ 1 ∧
    (∃ s, getColor viridisStops (1 / 2) = some s ∧ isHexColor s = true) := by
  have hlook : List.lookup "viridis" colorSchemes = some viridisStops := by decide
  exact ⟨hlook, by norm_num, by norm_num,
    (getColor_wellformed_endpoints "viridis" viridisStops (1 / 2) hlook
      (by norm_num) (by norm_num)).1⟩

/-! ## Label formatting -/

theorem labelTexts_append (l1 l2 : List RenderEvent) :
    labelTexts (l1 ++ l2) = labelTexts l1 ++ labelTexts l2 :=
  List.filterMap_append _ _ _

theorem labelTexts_drawPoint_of_range (w : Widget) (R theta : ℚ) (h : 0 ≤ R ∧ R ≤ 3) :
    labelTexts (drawPoint w R theta) = [pointLabel R theta] := by
  obtain ⟨p, hp⟩ := phiPrime_isSome_of_range R h
  unfold drawPoint
  rw [hp]
  rfl

theorem drawPointsList_cons_mk (w : Widget) (R theta : ℚ) (ps : List AnnotatedPoint) :
    drawPointsList w ({ R := R, theta := theta } :: ps) =
      drawPoint w R theta ++ drawPointsList w ps := by
  simp [drawPointsList]

theorem drawPointsList_nil (w : Widget) : drawPointsList w [] = [] := rfl

theorem jsToFixed_half : jsToFixed (1 / 2) 1 = "0.5" := by
  unfold jsToFixed
  rw [if_neg (by norm_num : ¬ (1 / 2 : ℚ) < 0),
    show ⌊(1 / 2 : ℚ) * 10 ^ 1 + 1 / 2⌋ = 5 by norm_num]
  decide

theorem jsToFixed_three_halves : jsToFixed (3 / 2) 1 = "1.5" := by
  unfold jsToFixed
  rw [if_neg (by norm_num : ¬ (3 / 2 : ℚ) < 0),
    show ⌊(3 / 2 : ℚ) * 10 ^ 1 + 1 / 2⌋ = 15 by norm_num]
  decide

theorem jsToFixed_five_halves : jsToFixed (5 / 2) 1 = "2.5" := by
  unfold jsToFixed
  rw [if_neg (by norm_num : ¬ (5 / 2 : ℚ) < 0),
    show ⌊(5 / 2 : ℚ) * 10 ^ 1 + 1 / 2⌋ = 25 by norm_num]
  decide

theorem jsToFixed_sixty : jsToFixed 60 0 = "60" := by
  unfold jsToFixed
  rw [if_neg (by norm_num : ¬ (60 : ℚ) < 0),
    show ⌊(60 : ℚ) * 10 ^ 0 + 1 / 2⌋ = 60 by norm_num]
  decide

theorem jsToFixed_onetwenty : jsToFixed 120 0 = "120" := by
  unfold jsToFixed
  rw [if_neg (by norm_num : ¬ (120 : ℚ) < 0),
    show ⌊(120 : ℚ) * 10 ^ 0 + 1 / 2⌋ = 120 by norm_num]
  decide

theorem jsToFixed_thirty : jsToFixed 30 0 = "30" := by
  unfold jsToFixed
  rw [if_neg (by norm_num : ¬ (30 : ℚ) < 0),
    show ⌊(30 : ℚ) * 10 ^ 0 + 1 / 2⌋ = 30 by norm_num]
  decide

theorem pointLabel_eval1 : pointLabel (1 / 2) 60 = "(R=0.5, θ=60°)" := by
  unfold pointLabel
  rw [jsToFixed_half, jsToFixed_sixty]
  decide

theorem pointLabel_eval2 : pointLabel (3 / 2) 120 = "(R=1.5, θ=120°)" := by
  unfold pointLabel
  rw [jsToFixed_three_halves, jsToFixed_onetwenty]
  decide

theorem pointLabel_eval3 : pointLabel (5 / 2) 30 = "(R=2.5, θ=30°)" := by
  unfold pointLabel
  rw [jsToFixed_five_halves, jsToFixed_thirty]
  decide

/-- C8: an in-range point's label is exactly `R` to one decimal and `theta`
to zero decimals with the degree mark; end to end, adding the three example
points to a freshly constructed widget renders three markers (one per
regime) with exactly the three expected label strings. -/
theorem end_to_end_three_points (w : Widget) (hpts : w.points = []) :
    ((addPoint ((addPoint ((addPoint w (1 / 2) 60).1) (3 / 2) 120).1) (5 / 2) 30).1).points =
      [{ R := 1 / 2, theta := 60 }, { R := 3 / 2, theta := 120 },
       { R := 5 / 2, theta := 30 }] ∧
    labelTexts (drawPointsList
        ((addPoint ((addPoint ((addPoint w (1 / 2) 60).1) (3 / 2) 120).1) (5 / 2) 30).1)
        (((addPoint ((addPoint ((addPoint w (1 / 2) 60).1) (3 / 2) 120).1) (5 / 2) 30).1).points)) =
      ["(R=0.5, θ=60°)", "(R=1.5, θ=120°)", "(R=2.5, θ=30°)"] ∧
    markerCount (drawVisualization
        ((addPoint ((addPoint ((addPoint w (1 / 2) 60).1) (3 / 2) 120).1) (5 / 2) 30).1)) = 3 ∧
    regimeOf (1 / 2) = some Regime.normal ∧
    regimeOf (3 / 2) = some Regime.strikeSlip ∧
    regimeOf (5 / 2) = some Regime.reverse ∧
    ∀ R theta : ℚ, 0 ≤ R → R ≤ 3 →
      labelTexts (drawPoint w R theta) =
        ["(R=" ++ jsToFixed R 1 ++ ", θ=" ++ jsToFixed theta 0 ++ "°)"] := by
  set w3 := (addPoint ((addPoint ((addPoint w (1 / 2) 60).1) (3 / 2) 120).1) (5 / 2) 30).1
    with hw3
  have hp3 : w3.points = [{ R := 1 / 2, theta := 60 }, { R := 3 / 2, theta := 120 },
      { R := 5 / 2, theta := 30 }] := by
    show ((w.points ++ [{ R := 1 / 2, theta := 60 }]) ++ [{ R := 3 / 2, theta := 120 }]) ++
      [{ R := 5 / 2, theta := 30 }] = _
    rw [hpts]
    rfl
  refine ⟨hp3, ?_, ?_, ?_, ?_, ?_, ?_⟩
  · rw [hp3, drawPointsList_cons_mk, drawPointsList_cons_mk, drawPointsList_cons_mk,
      drawPointsList_nil, labelTexts_append, labelTexts_append, labelTexts_append,
      labelTexts_drawPoint_of_range w3 (1 / 2) 60 ⟨by norm_num, by norm_num⟩,
      labelTexts_drawPoint_of_range w3 (3 / 2) 120 ⟨by norm_num, by norm_num⟩,
      labelTexts_drawPoint_of_range w3 (5 / 2) 30 ⟨by norm_num, by norm_num⟩,
      pointLabel_eval1, pointLabel_eval2, pointLabel_eval3]
    rfl
  · unfold drawVisualization
    rw [markerCount_clear_cons, markerCount_append, markerCount_append, markerCount_cellEvents,
      markerCount_axesEvents, hp3, drawPointsList_cons_mk, drawPointsList_cons_mk,
      drawPointsList_cons_mk, drawPointsList_nil, markerCount_append, markerCount_append,
      markerCount_append, markerCount_drawPoint, markerCount_drawPoint, markerCount_drawPoint,
      if_pos (show (0 : ℚ) ≤ 1 / 2 ∧ (1 / 2 : ℚ) ≤ 3 from ⟨by norm_num, by norm_num⟩),
      if_pos (show (0 : ℚ) ≤ 3 / 2 ∧ (3 / 2 : ℚ) ≤ 3 from ⟨by norm_num, by norm_num⟩),
      if_pos (show (0 : ℚ) ≤ 5 / 2 ∧ (5 / 2 : ℚ) ≤ 3 from ⟨by norm_num, by norm_num⟩)]
    rfl
  · unfold regimeOf
    rw [if_pos (⟨by norm_num, by norm_num⟩ : (0 : ℚ) ≤ 1 / 2 ∧ (1 / 2 : ℚ) < 1)]
  · unfold regimeOf
    rw [if_neg (by norm_num : ¬ ((0 : ℚ) ≤ 3 / 2 ∧ (3 / 2 : ℚ) < 1)),
      if_pos (⟨by norm_num, by norm_num⟩ : (1 : ℚ) ≤ 3 / 2 ∧ (3 / 2 : ℚ) < 2)]
  · unfold regimeOf
    rw [if_neg (by norm_num : ¬ ((0 : ℚ) ≤ 5 / 2 ∧ (5 / 2 : ℚ) < 1)),
      if_neg (by norm_num : ¬ ((1 : ℚ) ≤ 5 / 2 ∧ (5 / 2 : ℚ) < 2)),
      if_pos (⟨by norm_num, by norm_num⟩ : (2 : ℚ) ≤ 5 / 2 ∧ (5 / 2 : ℚ) ≤ 3)]
  · intro R theta hR0 hR3
    rw [labelTexts_drawPoint_of_range w R theta ⟨hR0, hR3⟩]
    rfl

/-- C8 witness: starting from the concrete constructed widget (whose point
list is empty), the three added points carry exactly the expected labels. -/
theorem end_to_end_three_points_witness :
    wExample.points = [] ∧
    labelTexts (drawPointsList
        ((addPoint ((addPoint ((addPoint wExample (1 / 2) 60).1) (3 / 2) 120).1) (5 / 2) 30).1)
        (((addPoint ((addPoint ((addPoint wExample (1 / 2) 60).1) (3 / 2) 120).1) (5 / 2) 30).1).points)) =
      ["(R=0.5, θ=60°)", "(R=1.5, θ=120°)", "(R=2.5, θ=30°)"] :=
  ⟨rfl, (end_to_end_three_points wExample rfl).2.1⟩

end StressDomain
